import Mathlib

/-!
Verification of the `mpsync` synchronization tool (`src/mpsync.py`).

A shallow embedding of the `MPSync` class: the connection lifecycle
(`connect`, `disconnect`, the context-manager wrapper) and the one-shot
sync walk (`sync`, `_copy_file`, `_create_folder`, `_delete`).  External
collaborators (the `mp` library: `MpFileExplorer`, `MpFileExplorerCaching`)
are modelled as an oracle environment `Env` deciding the outcome of each
remote call.  Python exceptions are modelled with `Except`; every call
sequence records a trace of the print statements and remote requests it
issues.
-/

namespace MPSyncModel

/-! ## Python `str.replace(old, "")` on character lists

`_copy_file`, `_create_folder` and `_delete` compute the remote path as
`path.as_posix().replace(self.folder, "")`.  Python's `str.replace`
removes every leftmost, non-overlapping occurrence of the pattern.
`pyGo pat s k` scans `s`; while `k > 0` it is still dropping the
characters of a pattern occurrence that was just matched. -/

def pyGo (pat : List Char) : List Char → Nat → List Char
  | [], _ => []
  | _ :: rest, k + 1 => pyGo pat rest k
  | c :: rest, 0 =>
    if pat ≠ [] ∧ pat.isPrefixOf (c :: rest) then pyGo pat rest (pat.length - 1)
    else c :: pyGo pat rest 0

/-- Python `s.replace(old, "")`: delete every leftmost non-overlapping
occurrence of `old` in `s` (with `s.replace("", "") = s`). -/
def strReplaceEmpty (s old : String) : String := ⟨pyGo old.data s.data 0⟩

/-- The remote-path derivation of `_copy_file` / `_create_folder` /
`_delete`: `path.as_posix().replace(self.folder, "")`. -/
def replaceDst (folder path : String) : String := strReplaceEmpty path folder

/-- Modelled from the spec: "Remote path derivation: take the entry's
absolute local path, remove the first literal occurrence of the configured
local-root string."  Removes only the first occurrence of `pat`
(Python `s.replace(pat, "", 1)`). -/
def stripFirstL (pat : List Char) : List Char → List Char
  | [] => []
  | c :: rest =>
    if pat ≠ [] ∧ pat.isPrefixOf (c :: rest) then (c :: rest).drop pat.length
    else c :: stripFirstL pat rest

/-- String version of `stripFirstL`: remove the first literal occurrence of
`pat` from `s`. -/
def stripFirst (s pat : String) : String := ⟨stripFirstL pat.data s.data⟩

/-- `hasOccL pat s`: does `pat` occur as a contiguous substring of `s`? -/
def hasOccL (pat : List Char) : List Char → Bool
  | [] => pat.isEmpty
  | c :: rest => pat.isPrefixOf (c :: rest) || hasOccL pat rest

/-- String version of `hasOccL`. -/
def hasOcc (pat s : String) : Bool := hasOccL pat.data s.data

/-! ## Lemmas about the replace functions -/

theorem pyGo_skip (pat : List Char) : ∀ (s : List Char) (k : Nat),
    pyGo pat s k = pyGo pat (s.drop k) 0 := by
  intro s
  induction s with
  | nil => intro k; cases k <;> simp [pyGo]
  | cons c rest ih =>
    intro k
    cases k with
    | zero => simp
    | succ k => simpa [pyGo] using ih k

theorem pyGo_of_no_occ (pat : List Char) : ∀ (s : List Char),
    hasOccL pat s = false → pyGo pat s 0 = s := by
  intro s
  induction s with
  | nil => intro _; simp [pyGo]
  | cons c rest ih =>
    intro h
    simp only [hasOccL, Bool.or_eq_false_iff] at h
    simp [pyGo, h.1, ih h.2]

theorem pyGo_eq_stripFirst (pat : List Char) : ∀ (s : List Char),
    hasOccL pat (stripFirstL pat s) = false →
    pyGo pat s 0 = stripFirstL pat s := by
  intro s
  induction s with
  | nil => intro _; simp [pyGo, stripFirstL]
  | cons c rest ih =>
    intro h
    by_cases hc : pat ≠ [] ∧ pat.isPrefixOf (c :: rest)
    · rw [stripFirstL] at h ⊢
      rw [if_pos hc] at h ⊢
      obtain ⟨a, tl, rfl⟩ : ∃ a tl, pat = a :: tl := by
        rcases pat with _ | ⟨a, tl⟩
        · exact absurd rfl hc.1
        · exact ⟨a, tl, rfl⟩
      rw [pyGo, if_pos hc, pyGo_skip]
      simp only [List.length_cons, Nat.add_sub_cancel, List.drop_succ_cons] at h ⊢
      exact pyGo_of_no_occ _ _ h
    · rw [stripFirstL, if_neg hc] at h ⊢
      simp only [hasOccL, Bool.or_eq_false_iff] at h
      rw [pyGo, if_neg hc, ih h.2]

/-! ## Data model

Python exceptions relevant to `mpsync.py`: `PyboardError`, `ConError`,
`AttributeError` (caught by `connect`), `RemoteIOError` (caught by
`disconnect` and `_create_folder`), and the plain `Exception`s raised by
the `explorer` property, `__enter__` and `__exit__`. -/

inductive PyErr where
  | pyboardError (msg : String)
  | conError (msg : String)
  | attributeError (msg : String)
  | remoteIOError (msg : String)
  | exn (msg : String)
deriving DecidableEq, Repr

/-- `str(e)`: the message of an exception. -/
def PyErr.msg : PyErr → String
  | .pyboardError m => m
  | .conError m => m
  | .attributeError m => m
  | .remoteIOError m => m
  | .exn m => m

/-- The `except (PyboardError, ConError, AttributeError)` clause of
`connect`. -/
def catchableByConnect : PyErr → Bool
  | .pyboardError _ => true
  | .conError _ => true
  | .attributeError _ => true
  | _ => false

/-- A remote-filesystem capability object (an `MpFileExplorer` /
`MpFileExplorerCaching` instance).  `truthy` is the object's Python truth
value, tested by `if self.explorer:` in `connect`. -/
structure Cap where
  id : Nat
  truthy : Bool
deriving DecidableEq, Repr

/-- Outcome of one constructor call `MpFileExplorer(...)` /
`MpFileExplorerCaching(...)`: it returns a capability object, or raises. -/
inductive ConsResult where
  | ok (c : Cap)
  | raise (e : PyErr)
deriving DecidableEq, Repr

/-- Outcome of `explorer.close()`. -/
inductive CloseResult where
  | ok
  | raise (e : PyErr)
deriving DecidableEq, Repr

/-- Outcome of `explorer.md(dst)`.  The `mp` capability fails with
`RemoteIOError` (spec section 6), carrying a message that distinguishes the
"directory already exists" case. -/
inductive MdResult where
  | ok
  | raiseRemote (msg : String)
deriving DecidableEq, Repr

/-- Outcome of `explorer.put(file, dst)`. -/
inductive PutResult where
  | ok
  | raiseRemote (msg : String)
deriving DecidableEq, Repr

/-- Outcome of `explorer.rm(dst)`. -/
inductive RmResult where
  | ok
  | raiseRemote (msg : String)
deriving DecidableEq, Repr

/-- The oracle environment: the behaviour of the external world (the port
path checks and every call into the `mp` collaborator library).
Constructor outcomes are indexed by the attempt number. -/
structure Env where
  portExists : Bool
  portIsDir : Bool
  newMpFileExplorer : Nat → ConsResult
  newMpFileExplorerCaching : Nat → ConsResult
  sysname : Cap → String
  close : Cap → CloseResult
  md : String → MdResult
  put : String → String → PutResult
  rm : String → RmResult

/-- The `MPSync` object state (the fields the specified core reads or
writes; `verbose`, `_error` and `_ts` are never consulted by the core). -/
structure MPSync where
  folder : String
  port : String
  reset : Bool
  caching : Bool
  explorer : Option Cap
deriving DecidableEq, Repr

/-- `MPSync.CONNECT_TRIES`. -/
def CONNECT_TRIES : Nat := 5

/-- `MPSync.MPF_PROTOCOL`. -/
def MPF_PROTOCOL : String := "ser"

/-- Message of the `Exception` raised by the `explorer` property when
`_explorer is None`. -/
def unconnectedMsg : String := "unconnected, please connect!"

/-- Observable events: print statements and remote requests, in issue
order. -/
inductive Ev where
  | consAttempt (i : Nat)
  | printConnected (name : String)
  | printRetry (i : Nat) (total : Nat)
  | printPortBad
  | printFail
  | printedErr (msg : String)
  | printCreating (dst : String)
  | printCopying (dst : String)
  | printDeleting (dst : String)
  | closeCall (c : Cap)
  | mdCall (dst : String)
  | putCall (localPath : String) (dst : String)
  | rmCall (dst : String)
deriving DecidableEq, Repr

/-- Result of a stateful operation: a normal value or a propagated Python
exception, the updated `MPSync` state, and the event trace. -/
structure PyResult (α : Type) where
  out : Except PyErr α
  st : MPSync
  tr : List Ev

/-! ## Connection lifecycle -/

/-- `MPSync.disconnect`.  Closes the held capability if any; clears the
handle only when `close()` succeeds; a `RemoteIOError` from `close()` is
printed and `False` is returned with the handle still set; any other
exception from `close()` propagates. -/
def disconnect (env : Env) (st : MPSync) : PyResult Bool :=
  match st.explorer with
  | none => ⟨.ok false, st, []⟩
  | some c =>
    match env.close c with
    | .ok => ⟨.ok true, { st with explorer := none }, [.closeCall c]⟩
    | .raise e =>
      match e with
      | .remoteIOError m => ⟨.ok false, st, [.closeCall c, .printedErr m]⟩
      | e => ⟨.error e, st, [.closeCall c]⟩

/-- The constructor selected by the `if self.caching:` branch of the
retry loop, at attempt `i`. -/
def constructAt (env : Env) (caching : Bool) (i : Nat) : ConsResult :=
  if caching then env.newMpFileExplorerCaching i else env.newMpFileExplorer i

/-- The `for i in range(self.CONNECT_TRIES):` loop of `connect`, together
with the `except` clause and the trailing failure print that control
reaches from inside the loop.  `i` is the loop index, `rem` the remaining
iterations. -/
def connectLoop (env : Env) (st : MPSync) (i : Nat) : Nat → PyResult Bool
  | 0 => ⟨.ok false, st, [.printFail]⟩
  | rem + 1 =>
    match constructAt env st.caching i with
    | .raise e =>
      if catchableByConnect e then
        ⟨.ok false, st, [.consAttempt i, .printedErr e.msg, .printFail]⟩
      else
        ⟨.error e, st, [.consAttempt i]⟩
    | .ok c =>
      let st' := { st with explorer := some c }
      if c.truthy then
        ⟨.ok true, st', [.consAttempt i, .printConnected (env.sysname c)]⟩
      else
        let r := connectLoop env st' (i + 1) rem
        ⟨r.out, r.st, .consAttempt i :: .printRetry i CONNECT_TRIES :: r.tr⟩

/-- `MPSync.connect`: idempotent disconnect, the port-path precondition
check, then the bounded construction-retry loop. -/
def connect (env : Env) (st : MPSync) : PyResult Bool :=
  let d := disconnect env st
  match d.out with
  | .error e =>
    if catchableByConnect e then
      ⟨.ok false, d.st, d.tr ++ [.printedErr e.msg, .printFail]⟩
    else
      ⟨.error e, d.st, d.tr⟩
  | .ok _ =>
    if !env.portExists || env.portIsDir then
      ⟨.ok false, d.st, d.tr ++ [.printPortBad]⟩
    else
      let r := connectLoop env d.st 0 CONNECT_TRIES
      ⟨r.out, r.st, d.tr ++ r.tr⟩

/-- Number of capability-construction attempts recorded in a trace. -/
def countAttempts : List Ev → Nat
  | [] => 0
  | .consAttempt _ :: r => countAttempts r + 1
  | _ :: r => countAttempts r

/-! ## Sync engine

`sync` never assigns to `self`, so its result carries only the outcome and
the trace.  A local directory is given by its `as_posix()` path string
together with its entries in the order `glob("*")` reports them; an entry
is a subdirectory (with its own entries), a regular file, or anything
else (skipped by the walk: neither `is_dir()` nor `is_file()`). -/

structure SyncRes where
  out : Except PyErr Unit
  tr : List Ev

inductive Entry where
  | dir (name : String) (children : List Entry)
  | file (name : String)
  | other (name : String)

/-- `parent / name` rendered by `as_posix()` (parent a normalized,
non-root posix path string). -/
def pathJoin (p n : String) : String := p ++ "/" ++ n

/-- `MPSync._copy_file`: derive the remote path, print, then
`self.explorer.put(file, dst)`.  The `explorer` property raises when the
session is unconnected; a `RemoteIOError` from `put` propagates. -/
def copy_file (env : Env) (st : MPSync) (path : String) : SyncRes :=
  let dst := replaceDst st.folder path
  match st.explorer with
  | none => ⟨.error (.exn unconnectedMsg), [.printCopying dst]⟩
  | some _ =>
    match env.put path dst with
    | .ok => ⟨.ok (), [.printCopying dst, .putCall path dst]⟩
    | .raiseRemote m =>
      ⟨.error (.remoteIOError m), [.printCopying dst, .putCall path dst]⟩

/-- `MPSync._create_folder`: derive the remote path, print, then
`self.explorer.md(dst)` with every `RemoteIOError` caught and printed. -/
def create_folder (env : Env) (st : MPSync) (path : String) : SyncRes :=
  let dst := replaceDst st.folder path
  match st.explorer with
  | none => ⟨.error (.exn unconnectedMsg), [.printCreating dst]⟩
  | some _ =>
    match env.md dst with
    | .ok => ⟨.ok (), [.printCreating dst, .mdCall dst]⟩
    | .raiseRemote m =>
      ⟨.ok (), [.printCreating dst, .mdCall dst, .printedErr m]⟩

/-- `MPSync._delete`: derive the remote path, print, then
`self.explorer.rm(dst)`; a `RemoteIOError` propagates. -/
def delete_entry (env : Env) (st : MPSync) (path : String) : SyncRes :=
  let dst := replaceDst st.folder path
  match st.explorer with
  | none => ⟨.error (.exn unconnectedMsg), [.printDeleting dst]⟩
  | some _ =>
    match env.rm dst with
    | .ok => ⟨.ok (), [.printDeleting dst, .rmCall dst]⟩
    | .raiseRemote m =>
      ⟨.error (.remoteIOError m), [.printDeleting dst, .rmCall dst]⟩

/-- `MPSync.sync` walking the directory at path `p` with entries `cs`:
for each entry in order, a subdirectory gets `_create_folder` and a
recursive walk, a regular file gets `_copy_file`, anything else is
skipped; the first propagated exception aborts the remaining walk. -/
def sync (env : Env) (st : MPSync) (p : String) : List Entry → SyncRes
  | [] => ⟨.ok (), []⟩
  | .dir n cs :: rest =>
    let r1 := create_folder env st (pathJoin p n)
    match r1.out with
    | .error e => ⟨.error e, r1.tr⟩
    | .ok _ =>
      let r2 := sync env st (pathJoin p n) cs
      match r2.out with
      | .error e => ⟨.error e, r1.tr ++ r2.tr⟩
      | .ok _ =>
        let r3 := sync env st p rest
        ⟨r3.out, r1.tr ++ (r2.tr ++ r3.tr)⟩
  | .file n :: rest =>
    let r1 := copy_file env st (pathJoin p n)
    match r1.out with
    | .error e => ⟨.error e, r1.tr⟩
    | .ok _ =>
      let r2 := sync env st p rest
      ⟨r2.out, r1.tr ++ r2.tr⟩
  | .other _ :: rest => sync env st p rest

/-! ## Context manager (`__enter__` / `__exit__`) -/

/-- Result of running a `with MPSync(...) as mps:` block. -/
structure WithRes where
  out : Except PyErr Unit
  bodyRan : Bool
  disconnectTried : Bool
  st : MPSync

/-- The `with`-statement over `MPSync`: `__enter__` connects and raises
`Exception("can't connect")` when `connect` returns `False`; the body runs
on the connected session; `__exit__` always runs `disconnect` and raises
`Exception("can't disconnect")` when it returns `False` (replacing any
body exception); when `disconnect` succeeds, the body's outcome
propagates. -/
def withSession (env : Env) (st : MPSync)
    (body : MPSync → Except PyErr Unit) : WithRes :=
  let c := connect env st
  match c.out with
  | .error e => ⟨.error e, false, false, c.st⟩
  | .ok false => ⟨.error (.exn "can't connect"), false, false, c.st⟩
  | .ok true =>
    let b := body c.st
    let d := disconnect env c.st
    match d.out with
    | .error e => ⟨.error e, true, true, d.st⟩
    | .ok true => ⟨b, true, true, d.st⟩
    | .ok false => ⟨.error (.exn "can't disconnect"), true, true, d.st⟩

/-! ## Helper predicates on traces and trees -/

/-- Does the immediate entry list contain a regular file or a
subdirectory? -/
def hasFileOrDir : List Entry → Bool
  | [] => false
  | .other _ :: rest => hasFileOrDir rest
  | _ :: _ => true

/-- Is the event a request on the remote filesystem capability? -/
def isRemoteCall : Ev → Bool
  | .closeCall _ => true
  | .mdCall _ => true
  | .putCall _ _ => true
  | .rmCall _ => true
  | _ => false

/-- Is the event a `rm` request? -/
def isRm : Ev → Bool
  | .rmCall _ => true
  | _ => false

/-- Is the event a `close` request? -/
def isClose : Ev → Bool
  | .closeCall _ => true
  | _ => false

/-! ## Concrete fixtures (for witnesses and counterexamples) -/

/-- An environment in which every external call succeeds. -/
def okEnv : Env where
  portExists := true
  portIsDir := false
  newMpFileExplorer := fun _ => .ok ⟨0, true⟩
  newMpFileExplorerCaching := fun _ => .ok ⟨0, true⟩
  sysname := fun _ => "esp32"
  close := fun _ => .ok
  md := fun _ => .ok
  put := fun _ _ => .ok
  rm := fun _ => .ok

/-- A session holding a live capability. -/
def connSt (folder : String) : MPSync where
  folder := folder
  port := "/dev/ttyUSB0"
  reset := false
  caching := false
  explorer := some ⟨0, true⟩

/-- An unconnected session. -/
def freshSt (folder : String) : MPSync := { connSt folder with explorer := none }

/-- Closing the capability fails with a `RemoteIOError`. -/
def envCloseErr : Env := { okEnv with close := fun _ => .raise (.remoteIOError "EIO") }

/-- The transport address does not exist. -/
def envNoPort : Env := { okEnv with portExists := false }

/-- The transport address does not exist and closing fails. -/
def envStale : Env :=
  { okEnv with portExists := false, close := fun _ => .raise (.remoteIOError "EIO") }

/-- `md` always fails with a remote I/O error that is not of the
"directory already exists" kind. -/
def envMdErr : Env := { okEnv with md := fun _ => .raiseRemote "permission denied" }

/-- The first construction attempt yields a non-live capability, later
ones a live one. -/
def envRetry : Env :=
  { okEnv with newMpFileExplorer := fun i =>
      match i with
      | 0 => .ok ⟨7, false⟩
      | _ => .ok ⟨1, true⟩ }

/-- Every construction attempt yields a non-live capability. -/
def envAllDead : Env := { okEnv with newMpFileExplorer := fun _ => .ok ⟨7, false⟩ }

/-- A body that succeeds. -/
def bodyOk : MPSync → Except PyErr Unit := fun _ => .ok ()

/-! ## Helper lemmas about the sync primitives -/

theorem create_folder_ev (env : Env) (st : MPSync) (path : String) (ev : Ev)
    (hev : ev ∈ (create_folder env st path).tr) :
    (∃ d, ev = .printCreating d) ∨ (∃ d, ev = .mdCall d) ∨ (∃ m, ev = .printedErr m) := by
  rcases hex : st.explorer with _ | c
  · simp [create_folder, hex] at hev
    exact Or.inl ⟨_, hev⟩
  · rcases hmd : env.md (replaceDst st.folder path) with _ | m <;>
      simp [create_folder, hex, hmd] at hev
    · rcases hev with rfl | rfl
      · exact Or.inl ⟨_, rfl⟩
      · exact Or.inr (Or.inl ⟨_, rfl⟩)
    · rcases hev with rfl | rfl | rfl
      · exact Or.inl ⟨_, rfl⟩
      · exact Or.inr (Or.inl ⟨_, rfl⟩)
      · exact Or.inr (Or.inr ⟨_, rfl⟩)

theorem copy_file_ev (env : Env) (st : MPSync) (path : String) (ev : Ev)
    (hev : ev ∈ (copy_file env st path).tr) :
    (∃ d, ev = .printCopying d) ∨ (∃ q d, ev = .putCall q d) := by
  rcases hex : st.explorer with _ | c
  · simp [copy_file, hex] at hev
    exact Or.inl ⟨_, hev⟩
  · rcases hput : env.put path (replaceDst st.folder path) with _ | m <;>
      simp [copy_file, hex, hput] at hev <;>
      rcases hev with rfl | rfl
    · exact Or.inl ⟨_, rfl⟩
    · exact Or.inr ⟨_, _, rfl⟩
    · exact Or.inl ⟨_, rfl⟩
    · exact Or.inr ⟨_, _, rfl⟩

theorem create_folder_out_ok (env : Env) (st : MPSync) (path : String) (c : Cap)
    (hc : st.explorer = some c) : (create_folder env st path).out = .ok () := by
  rcases hmd : env.md (replaceDst st.folder path) with _ | m <;>
    simp [create_folder, hc, hmd]

theorem mdCall_mem_create_folder (env : Env) (st : MPSync) (path : String) (c : Cap)
    (hc : st.explorer = some c) :
    Ev.mdCall (replaceDst st.folder path) ∈ (create_folder env st path).tr := by
  rcases hmd : env.md (replaceDst st.folder path) with _ | m <;>
    simp [create_folder, hc, hmd]

theorem putCall_mem_copy_file (env : Env) (st : MPSync) (path : String) (c : Cap)
    (hc : st.explorer = some c) :
    Ev.putCall path (replaceDst st.folder path) ∈ (copy_file env st path).tr := by
  rcases hput : env.put path (replaceDst st.folder path) with _ | m <;>
    simp [copy_file, hc, hput]

theorem no_putCall_create_folder (env : Env) (st : MPSync) (path q d : String) :
    Ev.putCall q d ∉ (create_folder env st path).tr := by
  intro hev
  rcases create_folder_ev env st path _ hev with ⟨x, hx⟩ | ⟨x, hx⟩ | ⟨x, hx⟩ <;> simp at hx

/-! ## Claim theorems -/

/-- C1 (counterexample): the claim "the remote path equals the entry's
absolute local path with the first literal occurrence of the configured
local-root string removed (and only that occurrence)" is false.  With
local root "/a" and entry "/a/a/x", the walk issues the put with remote
path "/x" — Python's `replace` removed both occurrences of "/a" — whereas
removing only the first occurrence yields "/a/x", and no put with that
remote path is issued. -/
theorem c1_counterexample :
    Ev.putCall "/a/a/x" "/x" ∈
      (sync okEnv (connSt "/a") "/a" [.dir "a" [.file "x"]]).tr ∧
    stripFirst "/a/a/x" "/a" = "/a/x" ∧
    Ev.putCall "/a/a/x" (stripFirst "/a/a/x" "/a") ∉
      (sync okEnv (connSt "/a") "/a" [.dir "a" [.file "x"]]).tr := by
  have htr : (sync okEnv (connSt "/a") "/a" [.dir "a" [.file "x"]]).tr =
      [.printCreating "", .mdCall "", .printCopying "/x", .putCall "/a/a/x" "/x"] := by
    simp [sync, create_folder, copy_file, okEnv, connSt, replaceDst,
      strReplaceEmpty, pyGo, pathJoin]
  rw [htr]
  refine ⟨by decide, by decide, by decide⟩

/-- C1 (amended): the remote path passed to put / make-directory equals the
entry's absolute local path with every leftmost non-overlapping literal
occurrence of the configured local-root string removed (Python `replace`
semantics); when the root does not occur again in the stripped remainder
this coincides with removing only the first occurrence. -/
theorem c1_remote_path (folder path : String)
    (h : hasOcc folder (stripFirst path folder) = false) :
    replaceDst folder path = stripFirst path folder ∧
    ∀ env st c, st.folder = folder → st.explorer = some c →
      Ev.putCall path (stripFirst path folder) ∈ (copy_file env st path).tr ∧
      Ev.mdCall (stripFirst path folder) ∈ (create_folder env st path).tr := by
  have heq : replaceDst folder path = stripFirst path folder :=
    congrArg String.mk (pyGo_eq_stripFirst folder.data path.data h)
  refine ⟨heq, fun env st c hf hc => ⟨?_, ?_⟩⟩
  · have := putCall_mem_copy_file env st path c hc
    rwa [hf, heq] at this
  · have := mdCall_mem_create_folder env st path c hc
    rwa [hf, heq] at this

/-- C1 (witness): at root "/r" and entry "/r/a.txt" the hypothesis holds
and the put is issued with remote path "/a.txt". -/
theorem c1_witness :
    hasOcc "/r" (stripFirst "/r/a.txt" "/r") = false ∧
    replaceDst "/r" "/r/a.txt" = stripFirst "/r/a.txt" "/r" ∧
    Ev.putCall "/r/a.txt" (stripFirst "/r/a.txt" "/r") ∈
      (copy_file okEnv (connSt "/r") "/r/a.txt").tr :=
  ⟨by decide,
   (c1_remote_path "/r" "/r/a.txt" (by decide)).1,
   ((c1_remote_path "/r" "/r/a.txt" (by decide)).2 okEnv (connSt "/r")
      ⟨0, true⟩ rfl rfl).1⟩

/-- C7: disconnect on a session with no handle returns false with no close
call; disconnect whose close raises a remote I/O error prints it, returns
false, and leaves the handle unchanged; disconnect whose close succeeds
clears the handle and returns true. -/
theorem c7_disconnect_cases (env : Env) (st : MPSync) :
    (st.explorer = none → disconnect env st = ⟨.ok false, st, []⟩) ∧
    (∀ c m, st.explorer = some c → env.close c = .raise (.remoteIOError m) →
      disconnect env st = ⟨.ok false, st, [.closeCall c, .printedErr m]⟩) ∧
    (∀ c, st.explorer = some c → env.close c = .ok →
      disconnect env st = ⟨.ok true, { st with explorer := none }, [.closeCall c]⟩) :=
  ⟨fun h => by simp [disconnect, h],
   fun c m hc hcl => by simp [disconnect, hc, hcl],
   fun c hc hcl => by simp [disconnect, hc, hcl]⟩

/-- C7 (witness): the three disconnect cases at concrete sessions. -/
theorem c7_witness :
    disconnect okEnv (freshSt "/r") = ⟨.ok false, freshSt "/r", []⟩ ∧
    disconnect envCloseErr (connSt "/r") =
      ⟨.ok false, connSt "/r", [.closeCall ⟨0, true⟩, .printedErr "EIO"]⟩ ∧
    disconnect okEnv (connSt "/r") =
      ⟨.ok true, { connSt "/r" with explorer := none }, [.closeCall ⟨0, true⟩]⟩ :=
  ⟨(c7_disconnect_cases okEnv (freshSt "/r")).1 rfl,
   (c7_disconnect_cases envCloseErr (connSt "/r")).2.1 ⟨0, true⟩ "EIO" rfl rfl,
   (c7_disconnect_cases okEnv (connSt "/r")).2.2 ⟨0, true⟩ rfl rfl⟩

/-- C5: when the transport address does not exist or is a directory,
connect makes zero capability-construction attempts, and (on a session
holding no handle) returns false immediately after the port message. -/
theorem c5_bad_port (env : Env) (st : MPSync)
    (hbad : env.portExists = false ∨ env.portIsDir = true) :
    countAttempts (connect env st).tr = 0 ∧
    (st.explorer = none → connect env st = ⟨.ok false, st, [.printPortBad]⟩) := by
  have hb : (!env.portExists || env.portIsDir) = true := by
    rcases hbad with h | h <;> simp [h]
  constructor
  · rcases hex : st.explorer with _ | c
    · simp [connect, disconnect, hex, hb, countAttempts]
    · rcases hcl : env.close c with _ | e
      · simp [connect, disconnect, hex, hcl, hb, countAttempts]
      · rcases e with m | m | m | m | m <;>
          simp [connect, disconnect, hex, hcl, hb, countAttempts,
            catchableByConnect, PyErr.msg]
  · intro h
    simp [connect, disconnect, h, hb]

/-- C5 (witness): connecting with a nonexistent port on a fresh session. -/
theorem c5_witness :
    countAttempts (connect envNoPort (freshSt "/r")).tr = 0 ∧
    connect envNoPort (freshSt "/r") = ⟨.ok false, freshSt "/r", [.printPortBad]⟩ :=
  ⟨(c5_bad_port envNoPort (freshSt "/r") (Or.inl rfl)).1,
   (c5_bad_port envNoPort (freshSt "/r") (Or.inl rfl)).2 rfl⟩

/-- C6 (counterexample): the claim "whenever connect reports failure the
handle is null afterwards, for every prior session state" is false.  On a
session holding a capability whose close fails with a remote I/O error,
a connect against a nonexistent port returns false with the stale handle
still set. -/
theorem c6_counterexample :
    (connect envStale (connSt "/r")).out = .ok false ∧
    (connect envStale (connSt "/r")).st.explorer = some ⟨0, true⟩ :=
  ⟨rfl, rfl⟩

/-- C6 (amended): whenever connect reports failure the handle is null
afterwards, provided the session held no handle when connect was called
and every successfully constructed capability is live; when the prior
handle's close fails, or a construction attempt yields a non-live
capability, a stale handle is retained. -/
theorem c6_failed_connect_handle (env : Env) (st : MPSync)
    (h0 : st.explorer = none)
    (hlive : ∀ i c, constructAt env st.caching i = .ok c → c.truthy = true)
    (hfail : (connect env st).out = .ok false) :
    (connect env st).st.explorer = none := by
  have hd : disconnect env st = ⟨.ok false, st, []⟩ := by simp [disconnect, h0]
  by_cases hp : (!env.portExists || env.portIsDir) = true
  · simp [connect, hd, hp, h0]
  · rcases hcons : constructAt env st.caching 0 with c | e
    · have ht := hlive 0 c hcons
      simp [connect, hd, hp, show CONNECT_TRIES = 4 + 1 from rfl, connectLoop,
        hcons, ht] at hfail
    · by_cases hcat : catchableByConnect e = true
      · simp [connect, hd, hp, show CONNECT_TRIES = 4 + 1 from rfl, connectLoop,
          hcons, hcat, h0]
      · simp [connect, hd, hp, show CONNECT_TRIES = 4 + 1 from rfl, connectLoop,
          hcons, hcat] at hfail

/-- C6 (witness): a failed connect from a fresh session with a live-on-
construction transport leaves the handle null. -/
theorem c6_witness : (connect envNoPort (freshSt "/r")).st.explorer = none :=
  c6_failed_connect_handle envNoPort (freshSt "/r") rfl
    (fun i c h => by
      simp [constructAt, envNoPort, okEnv, freshSt, connSt] at h
      rw [← h])
    rfl

/-! ## The connect retry loop -/

theorem connectLoop_succ (env : Env) :
    ∀ (k rem i : Nat) (st : MPSync), k < rem →
    (∀ j, j < k → ∃ c, constructAt env st.caching (i + j) = .ok c ∧ c.truthy = false) →
    (∃ c, constructAt env st.caching (i + k) = .ok c ∧ c.truthy = true) →
    (connectLoop env st i rem).out = .ok true ∧
    countAttempts (connectLoop env st i rem).tr = k + 1 := by
  intro k
  induction k with
  | zero =>
    intro rem i st hlt _ hsucc
    obtain ⟨c, hc, ht⟩ := hsucc
    rcases rem with _ | rem
    · omega
    · rw [Nat.add_zero] at hc
      simp [connectLoop, hc, ht, countAttempts]
  | succ k ih =>
    intro rem i st hlt hfails hsucc
    rcases rem with _ | rem
    · omega
    · obtain ⟨c0, hc0, ht0⟩ := hfails 0 (Nat.succ_pos k)
      rw [Nat.add_zero] at hc0
      have hrec := ih rem (i + 1) { st with explorer := some c0 } (by omega)
        (fun j hj => by
          have h := hfails (j + 1) (by omega)
          rwa [show i + (j + 1) = i + 1 + j by omega] at h)
        (by rwa [show i + 1 + k = i + (k + 1) by omega])
      constructor
      · simp [connectLoop, hc0, ht0, hrec.1]
      · simp [connectLoop, hc0, ht0, countAttempts, hrec.2]

theorem connectLoop_exhaust (env : Env) :
    ∀ (rem i : Nat) (st : MPSync),
    (∀ j, j < rem → ∃ c, constructAt env st.caching (i + j) = .ok c ∧ c.truthy = false) →
    (connectLoop env st i rem).out = .ok false ∧
    countAttempts (connectLoop env st i rem).tr = rem ∧
    (∀ j, j < rem → Ev.printRetry (i + j) CONNECT_TRIES ∈ (connectLoop env st i rem).tr) ∧
    Ev.printFail ∈ (connectLoop env st i rem).tr := by
  intro rem
  induction rem with
  | zero =>
    intro i st _
    refine ⟨rfl, rfl, fun j hj => absurd hj (by omega), ?_⟩
    simp [connectLoop]
  | succ rem ih =>
    intro i st hfails
    obtain ⟨c0, hc0, ht0⟩ := hfails 0 (Nat.succ_pos rem)
    rw [Nat.add_zero] at hc0
    have hrec := ih (i + 1) { st with explorer := some c0 }
      (fun j hj => by
        have h := hfails (j + 1) (by omega)
        rwa [show i + (j + 1) = i + 1 + j by omega] at h)
    refine ⟨?_, ?_, ?_, ?_⟩
    · simp [connectLoop, hc0, ht0, hrec.1]
    · simp [connectLoop, hc0, ht0, countAttempts, hrec.2.1]
    · intro j hj
      rcases j with _ | j
      · simp [connectLoop, hc0, ht0]
      · have hmem := hrec.2.2.1 j (by omega)
        rw [show i + (j + 1) = i + 1 + j by omega]
        simp [connectLoop, hc0, ht0]
        exact Or.inr hmem
    · simp [connectLoop, hc0, ht0]
      exact hrec.2.2.2

/-- C2: on a fresh session against a valid port, if the first `k`
construction attempts yield a non-live capability and attempt `k` a live
one, `k < CONNECT_TRIES`, then connect succeeds after exactly `k + 1`
attempts; if every attempt within the budget yields a non-live capability,
connect makes exactly `CONNECT_TRIES` attempts, reports each failed
attempt with its index and the budget, and then reports failure. -/
theorem c2_connect_retry (env : Env) (st : MPSync) (k : Nat)
    (hst : st.explorer = none) (hpe : env.portExists = true)
    (hpd : env.portIsDir = false) :
    (k < CONNECT_TRIES →
      (∀ j, j < k → ∃ c, constructAt env st.caching j = .ok c ∧ c.truthy = false) →
      (∃ c, constructAt env st.caching k = .ok c ∧ c.truthy = true) →
      (connect env st).out = .ok true ∧
      countAttempts (connect env st).tr = k + 1) ∧
    ((∀ j, j < CONNECT_TRIES →
        ∃ c, constructAt env st.caching j = .ok c ∧ c.truthy = false) →
      (connect env st).out = .ok false ∧
      countAttempts (connect env st).tr = CONNECT_TRIES ∧
      (∀ j, j < CONNECT_TRIES →
        Ev.printRetry j CONNECT_TRIES ∈ (connect env st).tr) ∧
      Ev.printFail ∈ (connect env st).tr) := by
  have hc : connect env st = ⟨(connectLoop env st 0 CONNECT_TRIES).out,
      (connectLoop env st 0 CONNECT_TRIES).st,
      (connectLoop env st 0 CONNECT_TRIES).tr⟩ := by
    simp [connect, disconnect, hst, hpe, hpd]
  rw [hc]
  constructor
  · intro hk hfails hsucc
    exact connectLoop_succ env k CONNECT_TRIES 0 st hk
      (fun j hj => by simpa using hfails j hj) (by simpa using hsucc)
  · intro hfails
    have h := connectLoop_exhaust env CONNECT_TRIES 0 st
      (fun j hj => by simpa using hfails j hj)
    exact ⟨h.1, h.2.1, fun j hj => by simpa using h.2.2.1 j hj, h.2.2.2⟩

/-- C2 (witness): a transport failing once then succeeding connects in 2
attempts; one failing every time makes all 5 attempts, reports them, and
fails. -/
theorem c2_witness :
    ((connect envRetry (freshSt "/r")).out = .ok true ∧
      countAttempts (connect envRetry (freshSt "/r")).tr = 2) ∧
    ((connect envAllDead (freshSt "/r")).out = .ok false ∧
      countAttempts (connect envAllDead (freshSt "/r")).tr = CONNECT_TRIES ∧
      Ev.printRetry 0 CONNECT_TRIES ∈ (connect envAllDead (freshSt "/r")).tr ∧
      Ev.printFail ∈ (connect envAllDead (freshSt "/r")).tr) := by
  constructor
  · exact (c2_connect_retry envRetry (freshSt "/r") 1 rfl rfl rfl).1 (by decide)
      (fun j hj => by interval_cases j; exact ⟨⟨7, false⟩, rfl, rfl⟩)
      ⟨⟨1, true⟩, rfl, rfl⟩
  · have h := (c2_connect_retry envAllDead (freshSt "/r") 0 rfl rfl rfl).2
      (fun j _ => ⟨⟨7, false⟩, rfl, rfl⟩)
    exact ⟨h.1, h.2.1, h.2.2.1 0 (by decide), h.2.2.2⟩

/-- C8: the scoped-session wrapper attempts disconnect whenever the body
ran (on every exit path); when connect does not succeed the wrapper fails
without running the body; and when the final disconnect reports failure
the wrapper raises the teardown error even though the body succeeded. -/
theorem c8_scoped_session (env : Env) (st : MPSync)
    (body : MPSync → Except PyErr Unit) :
    ((connect env st).out = .ok true →
      (withSession env st body).bodyRan = true ∧
      (withSession env st body).disconnectTried = true) ∧
    ((connect env st).out ≠ .ok true →
      (withSession env st body).bodyRan = false ∧
      ∃ e, (withSession env st body).out = .error e) ∧
    ((connect env st).out = .ok true → body (connect env st).st = .ok () →
      (disconnect env (connect env st).st).out = .ok false →
      (withSession env st body).out = .error (.exn "can't disconnect")) := by
  refine ⟨?_, ?_, ?_⟩
  · intro h
    rcases hd : (disconnect env (connect env st).st).out with e | b2
    · simp [withSession, h, hd]
    · rcases b2 <;> simp [withSession, h, hd]
  · intro h
    rcases ho : (connect env st).out with e | b
    · exact ⟨by simp [withSession, ho], ⟨e, by simp [withSession, ho]⟩⟩
    · rcases b
      · exact ⟨by simp [withSession, ho], ⟨.exn "can't connect", by simp [withSession, ho]⟩⟩
      · exact absurd ho h
  · intro h _ hd
    simp [withSession, h, hd]

/-- C8 (witness): with a close-failing transport the body runs, disconnect
is attempted, and the teardown error surfaces; with a missing port the
body never runs. -/
theorem c8_witness :
    (withSession envCloseErr (freshSt "/r") bodyOk).bodyRan = true ∧
    (withSession envCloseErr (freshSt "/r") bodyOk).disconnectTried = true ∧
    (withSession envCloseErr (freshSt "/r") bodyOk).out =
      .error (.exn "can't disconnect") ∧
    (withSession envNoPort (freshSt "/r") bodyOk).bodyRan = false :=
  ⟨((c8_scoped_session envCloseErr (freshSt "/r") bodyOk).1 rfl).1,
   ((c8_scoped_session envCloseErr (freshSt "/r") bodyOk).1 rfl).2,
   (c8_scoped_session envCloseErr (freshSt "/r") bodyOk).2.2 rfl rfl rfl,
   ((c8_scoped_session envNoPort (freshSt "/r") bodyOk).2.1
      (by rw [show (connect envNoPort (freshSt "/r")).out = .ok false from rfl]
          simp)).1⟩

/-- C9: the sync walk never issues a remove (or close) request on the
remote filesystem — only make-directory and put requests appear among the
remote calls of its trace, for every environment, session and tree. -/
theorem c9_sync_never_removes (env : Env) (st : MPSync) (p : String) (cs : List Entry) :
    ∀ ev ∈ (sync env st p cs).tr, isRm ev = false ∧ isClose ev = false := by
  refine sync.induct env st
    (fun p cs => ∀ ev ∈ (sync env st p cs).tr, isRm ev = false ∧ isClose ev = false)
    ?_ ?_ ?_ ?_ ?_ ?_ ?_ p cs
  · intro p ev hev
    simp [sync] at hev
  · intro p n cs rest r1 e h1
    have hr1 : r1 = create_folder env st (pathJoin p n) := rfl
    rw [hr1] at h1
    intro ev hev
    simp only [sync, h1] at hev
    rcases create_folder_ev env st (pathJoin p n) ev hev with
      ⟨d, rfl⟩ | ⟨d, rfl⟩ | ⟨m, rfl⟩ <;> exact ⟨rfl, rfl⟩
  · intro p n cs rest r1 a h1 r2 e h2 ih
    have hr1 : r1 = create_folder env st (pathJoin p n) := rfl
    have hr2 : r2 = sync env st (pathJoin p n) cs := rfl
    rw [hr1] at h1
    rw [hr2] at h2
    intro ev hev
    simp only [sync, h1, h2, List.mem_append] at hev
    rcases hev with hev | hev
    · rcases create_folder_ev env st (pathJoin p n) ev hev with
        ⟨d, rfl⟩ | ⟨d, rfl⟩ | ⟨m, rfl⟩ <;> exact ⟨rfl, rfl⟩
    · exact ih ev hev
  · intro p n cs rest r1 a h1 r2 b h2 ih1 ih2
    have hr1 : r1 = create_folder env st (pathJoin p n) := rfl
    have hr2 : r2 = sync env st (pathJoin p n) cs := rfl
    rw [hr1] at h1
    rw [hr2] at h2
    intro ev hev
    simp only [sync, h1, h2, List.mem_append] at hev
    rcases hev with hev | hev | hev
    · rcases create_folder_ev env st (pathJoin p n) ev hev with
        ⟨d, rfl⟩ | ⟨d, rfl⟩ | ⟨m, rfl⟩ <;> exact ⟨rfl, rfl⟩
    · exact ih1 ev hev
    · exact ih2 ev hev
  · intro p n rest r1 e h1
    have hr1 : r1 = copy_file env st (pathJoin p n) := rfl
    rw [hr1] at h1
    intro ev hev
    simp only [sync, h1] at hev
    rcases copy_file_ev env st (pathJoin p n) ev hev with
      ⟨d, rfl⟩ | ⟨q, d, rfl⟩ <;> exact ⟨rfl, rfl⟩
  · intro p n rest r1 a h1 ih
    have hr1 : r1 = copy_file env st (pathJoin p n) := rfl
    rw [hr1] at h1
    intro ev hev
    simp only [sync, h1, List.mem_append] at hev
    rcases hev with hev | hev
    · rcases copy_file_ev env st (pathJoin p n) ev hev with
        ⟨d, rfl⟩ | ⟨q, d, rfl⟩ <;> exact ⟨rfl, rfl⟩
    · exact ih ev hev
  · intro p name rest ih
    intro ev hev
    simp only [sync] at hev
    exact ih ev hev

/-- C10: on an unconnected session the walk raises the
unconnected-precondition error exactly when the walked directory has at
least one regular-file or subdirectory entry; when it has none (only
skipped entries, or nothing), sync returns successfully with no remote
request at all. -/
theorem c10_unconnected_sync (env : Env) (st : MPSync)
    (hst : st.explorer = none) (p : String) (cs : List Entry) :
    ((sync env st p cs).out = .error (.exn unconnectedMsg) ↔
      hasFileOrDir cs = true) ∧
    (hasFileOrDir cs = false → sync env st p cs = ⟨.ok (), []⟩) := by
  induction cs with
  | nil => exact ⟨by simp [sync, hasFileOrDir], fun _ => by simp [sync]⟩
  | cons e rest ih =>
    rcases e with ⟨n, cs'⟩ | n | n
    · have h1 : create_folder env st (pathJoin p n) =
          ⟨.error (.exn unconnectedMsg),
            [.printCreating (replaceDst st.folder (pathJoin p n))]⟩ := by
        simp [create_folder, hst]
      constructor
      · simp [sync, h1, hasFileOrDir]
      · intro hf
        simp [hasFileOrDir] at hf
    · have h1 : copy_file env st (pathJoin p n) =
          ⟨.error (.exn unconnectedMsg),
            [.printCopying (replaceDst st.folder (pathJoin p n))]⟩ := by
        simp [copy_file, hst]
      constructor
      · simp [sync, h1, hasFileOrDir]
      · intro hf
        simp [hasFileOrDir] at hf
    · constructor
      · simpa [sync, hasFileOrDir] using ih.1
      · intro hf
        have h := ih.2 (by simpa [hasFileOrDir] using hf)
        simpa [sync, hasFileOrDir] using h

/-- C10 (witness): an unconnected sync over a directory with a file raises
the unconnected error; over a directory holding only a skipped entry it
returns successfully with an empty trace. -/
theorem c10_witness :
    ((sync okEnv (freshSt "/r") "/r" [.file "a"]).out =
        .error (.exn unconnectedMsg) ↔ hasFileOrDir [.file "a"] = true) ∧
    sync okEnv (freshSt "/r") "/r" [.other "s"] = ⟨.ok (), []⟩ :=
  ⟨(c10_unconnected_sync okEnv (freshSt "/r") rfl "/r" [.file "a"]).1,
   (c10_unconnected_sync okEnv (freshSt "/r") rfl "/r" [.other "s"]).2 rfl⟩

/-- C4: on a connected session, the make-directory call for a directory
entry is issued before the entire walk of that directory's contents —
hence before any put for a file directly inside it — and no put precedes
it during the processing of that entry; this holds at every directory
entry position (any path `p`, sibling lists `cs`, `rest`). -/
theorem c4_mkdir_before_children (env : Env) (st : MPSync) (c : Cap)
    (hc : st.explorer = some c) (p n : String) (cs rest : List Entry) :
    ∃ pre t2,
      (sync env st p (.dir n cs :: rest)).tr =
        pre ++ ((sync env st (pathJoin p n) cs).tr ++ t2) ∧
      Ev.mdCall (replaceDst st.folder (pathJoin p n)) ∈ pre ∧
      ∀ q d, Ev.putCall q d ∉ pre := by
  have h1 : (create_folder env st (pathJoin p n)).out = .ok () :=
    create_folder_out_ok env st (pathJoin p n) c hc
  rcases h2 : (sync env st (pathJoin p n) cs).out with e | u
  · refine ⟨(create_folder env st (pathJoin p n)).tr, [], ?_,
      mdCall_mem_create_folder env st (pathJoin p n) c hc,
      fun q d => no_putCall_create_folder env st (pathJoin p n) q d⟩
    simp [sync, h1, h2]
  · refine ⟨(create_folder env st (pathJoin p n)).tr, (sync env st p rest).tr, ?_,
      mdCall_mem_create_folder env st (pathJoin p n) c hc,
      fun q d => no_putCall_create_folder env st (pathJoin p n) q d⟩
    simp [sync, h1, h2]

/-- C4 (witness): at a concrete tree, the directory's make-directory call
precedes the walk of its contents. -/
theorem c4_witness :
    ∃ pre t2,
      (sync okEnv (connSt "/r") "/r" [.dir "d" [.file "x"]]).tr =
        pre ++ ((sync okEnv (connSt "/r") (pathJoin "/r" "d") [.file "x"]).tr ++ t2) ∧
      Ev.mdCall (replaceDst "/r" (pathJoin "/r" "d")) ∈ pre ∧
      ∀ q d, Ev.putCall q d ∉ pre :=
  c4_mkdir_before_children okEnv (connSt "/r") ⟨0, true⟩ rfl "/r" "d" [.file "x"] []

/-- C3 (amended): during a connected sync, every remote I/O error raised
by a make-directory request — whatever its message, not only the
"directory already exists" class — is swallowed (logged, walk continues);
an error outcome of sync can only arise from a put whose remote I/O error
propagates, aborting the walk right at that put call (the trace ends with
it). -/
theorem c3_error_handling (env : Env) (st : MPSync) (c : Cap) (hc : st.explorer = some c)
    (p : String) (cs : List Entry) :
    ((∀ q d, env.put q d = .ok) → (sync env st p cs).out = .ok ()) ∧
    (∀ e, (sync env st p cs).out = .error e →
      ∃ q d m t1, env.put q d = .raiseRemote m ∧ e = .remoteIOError m ∧
        (sync env st p cs).tr = t1 ++ [.putCall q d]) := by
  refine sync.induct env st
    (fun p cs =>
      ((∀ q d, env.put q d = .ok) → (sync env st p cs).out = .ok ()) ∧
      (∀ e, (sync env st p cs).out = .error e →
        ∃ q d m t1, env.put q d = .raiseRemote m ∧ e = .remoteIOError m ∧
          (sync env st p cs).tr = t1 ++ [.putCall q d]))
    ?_ ?_ ?_ ?_ ?_ ?_ ?_ p cs
  · intro p
    exact ⟨fun _ => by simp [sync], fun e he => by simp [sync] at he⟩
  · intro p n cs rest r1 e h1
    have hr1 : r1 = create_folder env st (pathJoin p n) := rfl
    rw [hr1, create_folder_out_ok env st (pathJoin p n) c hc] at h1
    exact absurd h1 (by simp)
  · intro p n cs rest r1 a h1 r2 e h2 ih
    have hr1 : r1 = create_folder env st (pathJoin p n) := rfl
    have hr2 : r2 = sync env st (pathJoin p n) cs := rfl
    rw [hr1] at h1
    rw [hr2] at h2
    have hout : (sync env st p (.dir n cs :: rest)).out = .error e := by
      simp [sync, h1, h2]
    have htr2 : (sync env st p (.dir n cs :: rest)).tr =
        (create_folder env st (pathJoin p n)).tr ++ (sync env st (pathJoin p n) cs).tr := by
      simp [sync, h1, h2]
    constructor
    · intro hput
      obtain ⟨q, d, m, t1, hqd, _, _⟩ := ih.2 e h2
      rw [hput q d] at hqd
      exact absurd hqd (by simp)
    · intro e' he'
      rw [hout] at he'
      obtain rfl := Except.error.inj he'
      obtain ⟨q, d, m, t1, hqd, hem, htr⟩ := ih.2 e h2
      refine ⟨q, d, m, (create_folder env st (pathJoin p n)).tr ++ t1, hqd, hem, ?_⟩
      rw [htr2, htr, List.append_assoc]
  · intro p n cs rest r1 a h1 r2 b h2 ih1 ih2
    have hr1 : r1 = create_folder env st (pathJoin p n) := rfl
    have hr2 : r2 = sync env st (pathJoin p n) cs := rfl
    rw [hr1] at h1
    rw [hr2] at h2
    have hout : (sync env st p (.dir n cs :: rest)).out = (sync env st p rest).out := by
      simp [sync, h1, h2]
    have htr2 : (sync env st p (.dir n cs :: rest)).tr =
        (create_folder env st (pathJoin p n)).tr ++
          ((sync env st (pathJoin p n) cs).tr ++ (sync env st p rest).tr) := by
      simp [sync, h1, h2]
    constructor
    · intro hput
      rw [hout]
      exact ih2.1 hput
    · intro e he
      rw [hout] at he
      obtain ⟨q, d, m, t1, hqd, hem, htr⟩ := ih2.2 e he
      refine ⟨q, d, m,
        (create_folder env st (pathJoin p n)).tr ++
          ((sync env st (pathJoin p n) cs).tr ++ t1), hqd, hem, ?_⟩
      rw [htr2, htr]
      simp [List.append_assoc]
  · intro p n rest r1 e h1
    have hr1 : r1 = copy_file env st (pathJoin p n) := rfl
    rw [hr1] at h1
    rcases hput : env.put (pathJoin p n) (replaceDst st.folder (pathJoin p n)) with _ | m
    · exfalso
      simp [copy_file, hc, hput] at h1
    · have hcf : copy_file env st (pathJoin p n) =
          ⟨.error (.remoteIOError m),
            [.printCopying (replaceDst st.folder (pathJoin p n)),
             .putCall (pathJoin p n) (replaceDst st.folder (pathJoin p n))]⟩ := by
        simp [copy_file, hc, hput]
      have hout : (sync env st p (.file n :: rest)).out = .error (.remoteIOError m) := by
        simp [sync, hcf]
      have htr : (sync env st p (.file n :: rest)).tr =
          [.printCopying (replaceDst st.folder (pathJoin p n)),
           .putCall (pathJoin p n) (replaceDst st.folder (pathJoin p n))] := by
        simp [sync, hcf]
      constructor
      · intro hput2
        rw [hput2 (pathJoin p n) (replaceDst st.folder (pathJoin p n))] at hput
        exact absurd hput (by simp)
      · intro e' he'
        rw [hout] at he'
        obtain rfl := Except.error.inj he'
        refine ⟨pathJoin p n, replaceDst st.folder (pathJoin p n), m,
          [.printCopying (replaceDst st.folder (pathJoin p n))], hput, rfl, ?_⟩
        rw [htr]
        rfl
  · intro p n rest r1 a h1 ih
    have hr1 : r1 = copy_file env st (pathJoin p n) := rfl
    rw [hr1] at h1
    have hout : (sync env st p (.file n :: rest)).out = (sync env st p rest).out := by
      simp [sync, h1]
    have htr2 : (sync env st p (.file n :: rest)).tr =
        (copy_file env st (pathJoin p n)).tr ++ (sync env st p rest).tr := by
      simp [sync, h1]
    constructor
    · intro hput
      rw [hout]
      exact ih.1 hput
    · intro e he
      rw [hout] at he
      obtain ⟨q, d, m, t1, hqd, hem, htr⟩ := ih.2 e he
      refine ⟨q, d, m, (copy_file env st (pathJoin p n)).tr ++ t1, hqd, hem, ?_⟩
      rw [htr2, htr, List.append_assoc]
  · intro p name rest ih
    have hout : (sync env st p (.other name :: rest)).out = (sync env st p rest).out := by
      simp [sync]
    have htr2 : (sync env st p (.other name :: rest)).tr = (sync env st p rest).tr := by
      simp [sync]
    constructor
    · intro hput
      rw [hout]
      exact ih.1 hput
    · intro e he
      rw [hout] at he
      obtain ⟨q, d, m, t1, hqd, hem, htr⟩ := ih.2 e he
      exact ⟨q, d, m, t1, hqd, hem, by rw [htr2, htr]⟩

/-- C3 (counterexample): the claim "every remote I/O error other than the
directory-already-exists class raised by make-directory propagates and
aborts the walk" is false: an `md` failing with "permission denied" is
swallowed — the sync still succeeds and still issues the later put. -/
theorem c3_counterexample :
    envMdErr.md "/d" = .raiseRemote "permission denied" ∧
    ("permission denied" : String) ≠ "directory already exists" ∧
    (sync envMdErr (connSt "/r") "/r" [.dir "d" [], .file "a"]).out = .ok () ∧
    Ev.putCall "/r/a" "/a" ∈
      (sync envMdErr (connSt "/r") "/r" [.dir "d" [], .file "a"]).tr := by
  have h : sync envMdErr (connSt "/r") "/r" [.dir "d" [], .file "a"] =
      ⟨.ok (), [.printCreating "/d", .mdCall "/d", .printedErr "permission denied",
        .printCopying "/a", .putCall "/r/a" "/a"]⟩ := by
    simp [sync, create_folder, copy_file, envMdErr, okEnv, connSt, replaceDst,
      strReplaceEmpty, pyGo, pathJoin]
  rw [h]
  exact ⟨rfl, by decide, rfl, by decide⟩

/-- C3 (witness): in the connected run where `md` always fails with
"permission denied" and every put succeeds, sync still returns
successfully. -/
theorem c3_witness :
    (sync envMdErr (connSt "/r") "/r" [.dir "d" [], .file "a"]).out = .ok () :=
  (c3_error_handling envMdErr (connSt "/r") ⟨0, true⟩ rfl "/r"
    [.dir "d" [], .file "a"]).1 (fun _ _ => rfl)

/-- C9 (witness): a remote call of a concrete sync run is neither a
remove nor a close. -/
theorem c9_witness :
    isRm (Ev.mdCall "/d") = false ∧ isClose (Ev.mdCall "/d") = false :=
  c9_sync_never_removes okEnv (connSt "/r") "/r" [.dir "d" []] (Ev.mdCall "/d")
    (by simp [sync, create_folder, okEnv, connSt, replaceDst, strReplaceEmpty,
      pyGo, pathJoin])
